import Mathlib

/-!
Shallow embedding of `src/template-react-tailwind/src/App.tsx`: a single-page
front-end that fetches a JSON site manifest, routes by normalized path, and
dispatches typed content sections to rendering rules.

JavaScript strings are modelled as Lean `String` (here a wrapper around
`List Char`); optional TS fields (`x?: string`) and fields the code guards
with truthiness become `Option String`, where JS `undefined` is `none` and
the empty string is `some ""` (both are falsy to the code).
-/

namespace TemplateApp

/-- TS `type ManifestNavLink = { label: string, slug: string }` (App.tsx:4-7). -/
structure ManifestNavLink where
  label : String
  slug : String
deriving DecidableEq

/-- TS `type ManifestSection = { type: string, heading?: string, body?: string }`
(App.tsx:14-18). -/
structure ManifestSection where
  type : String
  heading : Option String
  body : Option String
deriving DecidableEq

/-- TS `type ManifestPage = { slug: string, title: string, sections: ManifestSection[] }`
(App.tsx:20-24). -/
structure ManifestPage where
  slug : String
  title : String
  sections : List ManifestSection
deriving DecidableEq

/-- TS `type ManifestFooter = { text?: string, links?: ManifestNavLink[] }` (App.tsx:9-12). -/
structure ManifestFooter where
  text : Option String
  links : Option (List ManifestNavLink)
deriving DecidableEq

/-- The `nav?: { links?: ManifestNavLink[] }` object inside the manifest (App.tsx:33). -/
structure ManifestNav where
  links : Option (List ManifestNavLink)
deriving DecidableEq

/-- The nested `manifest` object of the response (App.tsx:32-36). -/
structure ManifestInner where
  nav : Option ManifestNav
  footer : Option ManifestFooter
  pages : List ManifestPage
deriving DecidableEq

/-- TS `type ManifestResponse` (App.tsx:26-37).  The TS type declares
`page_title` and `meta_description` as required strings, but the code only
ever reads them through truthiness guards (`data.page_title || siteName`,
`if (description)`), under which a missing field and an empty string behave
identically; both are modelled as `Option String` so that "absent" is
representable. -/
structure ManifestResponse where
  id : Int
  business_name : String
  page_title : Option String
  meta_description : Option String
  cta : Option String
  manifest : ManifestInner
deriving DecidableEq

/-- JS truthiness of a possibly-absent string: `undefined` and `""` are falsy. -/
def truthyStr : Option String → Bool
  | none => false
  | some s => !(s == "")

/-- JS `v || fallback` for a possibly-absent string `v`. -/
def orElseStr (v : Option String) (fallback : String) : String :=
  match v with
  | none => fallback
  | some s => if s = "" then fallback else s

/-- Model of `slug.replace(/^\//, '')` (App.tsx:44): the regex strips at most one
leading `'/'`. -/
def stripOneLeadingSlash (s : String) : String :=
  if s.data.head? = some '/' then String.mk s.data.tail else s

/-- Source `slugToPath` (App.tsx:42-45):
`if (!slug || slug === '/' || slug === 'home') return '/'` then
`return '/' + slug.replace(/^\//, '')`. -/
def slugToPath (slug : String) : String :=
  if slug = "" ∨ slug = "/" ∨ slug = "home" then "/"
  else "/" ++ stripOneLeadingSlash slug

/-- Holds when `s` begins with the character `'/'` (in particular `s` is non-empty). -/
def startsWithSlash (s : String) : Bool :=
  s.data.head? == some '/'

/-- Holds when `s` begins with two `'/'` characters (a doubled leading slash). -/
def doubledSlash (s : String) : Bool :=
  s.data.head? == some '/' && s.data.tail.head? == some '/'

theorem data_slash_append (t : String) : ("/" ++ t).data = '/' :: t.data := by
  rw [String.data_append]
  rfl

theorem slugToPath_startsWithSlash (s : String) :
    startsWithSlash (slugToPath s) = true := by
  unfold slugToPath
  split
  · rfl
  · show startsWithSlash ("/" ++ stripOneLeadingSlash s) = true
    unfold startsWithSlash
    rw [data_slash_append]
    simp

theorem slugToPath_of_not_special (s : String)
    (h1 : s ≠ "") (h2 : s ≠ "/") (h3 : s ≠ "home") :
    slugToPath s = "/" ++ stripOneLeadingSlash s := by
  unfold slugToPath
  simp [h1, h2, h3]

theorem stripOneLeadingSlash_head (s : String) (h : doubledSlash s = false) :
    (stripOneLeadingSlash s).data.head? ≠ some '/' := by
  unfold doubledSlash at h
  unfold stripOneLeadingSlash
  split
  · rename_i hhd
    simp only [hhd] at h
    simpa using h
  · rename_i hhd
    exact hhd

theorem slugToPath_no_new_doubling (s : String) (h : doubledSlash s = false) :
    doubledSlash (slugToPath s) = false := by
  unfold slugToPath
  split
  · rfl
  · show doubledSlash ("/" ++ stripOneLeadingSlash s) = false
    unfold doubledSlash
    rw [data_slash_append]
    simp only [List.head?_cons, List.tail_cons]
    have := stripOneLeadingSlash_head s h
    simpa using this

theorem stripOneLeadingSlash_of_slash (s : String) (h : s.data.head? = some '/') :
    '/' :: (stripOneLeadingSlash s).data = s.data := by
  unfold stripOneLeadingSlash
  rw [if_pos h]
  show '/' :: s.data.tail = s.data
  cases hs : s.data with
  | nil => simp [hs] at h
  | cons c rest =>
    rw [hs] at h
    simp only [List.head?_cons, Option.some.injEq] at h
    simp [h]

theorem stripOneLeadingSlash_of_not_slash (s : String)
    (h : ¬ s.data.head? = some '/') :
    stripOneLeadingSlash s = s := by
  unfold stripOneLeadingSlash
  rw [if_neg h]

theorem slugToPath_data_of_not_special (s : String)
    (h1 : s ≠ "") (h2 : s ≠ "/") (h3 : s ≠ "home") :
    (slugToPath s).data = '/' :: (stripOneLeadingSlash s).data := by
  rw [slugToPath_of_not_special s h1 h2 h3, data_slash_append]

/-! ## Manifest Client (App.tsx:55-73)

`fetch(manifestUrl).then((res) => res.json()).then(setData).catch(setError)`.
A browser `fetch` resolves for every HTTP response regardless of status and
rejects only on network error; `res.json()` rejects exactly when the body is
not valid JSON.  The code never reads `res.ok` or `res.status`.  An outcome
is therefore either a network error or a response carrying its 2xx flag and
the JSON parse result of its body. -/

/-- The observable outcome of the single manifest fetch. `ok` is the 2xx
status flag of the response; `jsonBody` is `some m` exactly when the body
parses as JSON (into the manifest shape). -/
inductive FetchOutcome where
  | networkError
  | response (ok : Bool) (jsonBody : Option ManifestResponse)
deriving DecidableEq

/-- The error message set by the catch handler (App.tsx:68). -/
def fetchErrorMessage : String := "Failed to load site configuration."

/-- The `(data, error)` React state pair after the fetch chain settles
(App.tsx:61-72).  The success handler runs only when `res.json()` resolved,
i.e. when the body was JSON; the `ok` flag is never inspected. -/
def applyFetch : FetchOutcome → Option ManifestResponse × Option String
  | .networkError => (none, some fetchErrorMessage)
  | .response _ none => (none, some fetchErrorMessage)
  | .response _ (some m) => (some m, none)

/-! ## Path Router (App.tsx:51-53, 75-82, 106-112) -/

/-- The router's view state: the `currentPath` React state plus the list of
entries pushed onto the browser history by this view. -/
structure RouterState where
  currentPath : String
  history : List String
deriving DecidableEq

/-- Source `handleNavigate` (App.tsx:106-112): `const normalized = path || '/'`;
no-op when `normalized === currentPath`, else
`window.history.pushState({}, '', normalized)` + `setCurrentPath(normalized)`.
`pushState` performs no page reload. -/
def handleNavigate (st : RouterState) (path : String) : RouterState :=
  let normalized := if path = "" then "/" else path
  if normalized = st.currentPath then st
  else { currentPath := normalized, history := st.history ++ [normalized] }

/-- Initial state (App.tsx:51-53): `window.location.pathname || '/'`. -/
def initialRouterState (pathname : String) : RouterState :=
  { currentPath := if pathname = "" then "/" else pathname, history := [] }

/-- The navigation events the Shell and the browser can deliver to the view:
a click on the site name (`onNavigate('/')`, App.tsx:189), a click on a nav
or footer link (`onNavigate(slugToPath(link.slug))`, App.tsx:177-180, 202,
233), or a `popstate` event reporting the browser's pathname (App.tsx:76-78). -/
inductive NavInput where
  | siteNameClick
  | navLinkClick (slug : String)
  | footerLinkClick (slug : String)
  | popState (pathname : String)
deriving DecidableEq

/-- One step of the view's path state under a navigation event.  `popstate`
sets `currentPath` to `window.location.pathname || '/'` (App.tsx:76-78) and
moves within the existing history rather than pushing. -/
def navStep (st : RouterState) : NavInput → RouterState
  | .siteNameClick => handleNavigate st "/"
  | .navLinkClick slug => handleNavigate st (slugToPath slug)
  | .footerLinkClick slug => handleNavigate st (slugToPath slug)
  | .popState pathname =>
      { st with currentPath := if pathname = "" then "/" else pathname }

/-- The state after initialization from the browser location followed by a
sequence of navigation events. -/
def runNav (pathname : String) (inputs : List NavInput) : RouterState :=
  inputs.foldl navStep (initialRouterState pathname)

/-! ## Section Dispatcher (App.tsx:248-350)

The rendered output of a section is modelled as the list of content
elements its component emits, in document order.  A JSX guard
`{x && <elem>}` emits the element exactly when `x` is truthy. -/

/-- A content element emitted by a section component. -/
inductive Elem where
  | headingElem (text : String)
  | bodyElem (text : String)
  | typeTag (text : String)
  | imagePlaceholder
deriving DecidableEq

/-- An optional field rendered under a truthiness guard `{x && <elem>}`:
emitted only when present and non-empty. -/
def optElem (f : String → Elem) : Option String → List Elem
  | none => []
  | some s => if s = "" then [] else [f s]

/-- Component `Hero` (App.tsx:252-261): heading and body are rendered unconditionally. -/
def Hero (heading body : String) : List Elem :=
  [.headingElem heading, .bodyElem body]

/-- Component `TextBlock` (App.tsx:263-278): heading and body each guarded by truthiness. -/
def TextBlock (heading body : Option String) : List Elem :=
  optElem .headingElem heading ++ optElem .bodyElem body

/-- Component `ImageBlock` (App.tsx:280-298): optional heading/body plus a fixed
image placeholder. -/
def ImageBlock (heading body : Option String) : List Elem :=
  optElem .headingElem heading ++ optElem .bodyElem body ++ [.imagePlaceholder]

/-- Component `GenericSection` (App.tsx:300-320): always shows the raw type tag, then
optional heading/body. -/
def GenericSection (ty : String) (heading body : Option String) : List Elem :=
  .typeTag ty :: (optElem .headingElem heading ++ optElem .bodyElem body)

/-- Source `renderSection` (App.tsx:322-350): a `switch` on `section.type` by exact
string equality; the `default` branch returns `null` (nothing rendered). -/
def renderSection (s : ManifestSection) : List Elem :=
  if s.type = "hero" then Hero (s.heading.getD "") (s.body.getD "")
  else if s.type = "text-block" ∨ s.type = "content-block" then
    TextBlock s.heading s.body
  else if s.type = "image-block" then ImageBlock s.heading s.body
  else if s.type = "profile-row" ∨ s.type = "testimonial" ∨ s.type = "faq" ∨
      s.type = "contact-form" then
    GenericSection s.type s.heading s.body
  else []

/-! ## Page Composer (App.tsx:130-156) -/

/-- Source `currentPage` (App.tsx:132-135):
`hasPages ? pages.find((page) => slugToPath(page.slug) === currentPath) || pages[0] : undefined`.
A found page is a JS object, hence always truthy, so `||` falls back to
`pages[0]` exactly when `find` returned `undefined`. -/
def currentPage (pages : List ManifestPage) (path : String) : Option ManifestPage :=
  if pages.length > 0 then
    match pages.find? (fun p => slugToPath p.slug == path) with
    | some p => some p
    | none => pages.head?
  else none

/-- What the composer places inside the layout (App.tsx:145-155): either the
active page's sections rendered in order, or an informational message. -/
inductive ComposedView where
  | pageView (blocks : List (List Elem))
  | infoMessage (msg : String)
deriving DecidableEq

/-- The `<div>Page not found</div>` element (App.tsx:152). -/
def pageNotFoundView : ComposedView := .infoMessage "Page not found"

/-- The `<div>No pages defined in manifest</div>` element (App.tsx:154). -/
def noPagesDefinedView : ComposedView := .infoMessage "No pages defined in manifest"

/-- The composed page body (App.tsx:145-155):
`currentPage ? sections : hasPages ? "Page not found" : "No pages defined in manifest"`. -/
def composeView (pages : List ManifestPage) (path : String) : ComposedView :=
  match currentPage pages path with
  | some page => .pageView (page.sections.map renderSection)
  | none => if pages.length > 0 then pageNotFoundView else noPagesDefinedView

/-! ## Document metadata side effect (App.tsx:84-104) -/

/-- A `<meta>` element in the document head. -/
structure MetaElem where
  name : String
  content : String
deriving DecidableEq

/-- The document-level state the metadata effect touches: `document.title`
and the meta elements of `document.head`. -/
structure DocState where
  title : String
  metas : List MetaElem
deriving DecidableEq

/-- Model of `document.querySelector('meta[name="description"]')` followed by
`meta.content = description`: updates the content of the **first**
description meta in place, leaving every other element unchanged. -/
def setFirstDescription : List MetaElem → String → List MetaElem
  | [], _ => []
  | m :: rest, c =>
      if m.name = "description" then { m with content := c } :: rest
      else m :: setFirstDescription rest c

/-- Whether the head contains a description meta element. -/
def hasDescriptionMeta (metas : List MetaElem) : Bool :=
  metas.any (fun m => m.name == "description")

/-- Number of description meta elements in the head. -/
def countDescriptionMetas (metas : List MetaElem) : Nat :=
  metas.countP (fun m => m.name == "description")

/-- The guarded meta upsert (App.tsx:93-103): run only `if (description)`
(falsy when absent or empty); `querySelector` finds the first description
meta and its content is updated in place, otherwise a fresh
`<meta name="description">` is created and appended to the head. -/
def upsertDescription (metas : List MetaElem) (desc : Option String) : List MetaElem :=
  match desc with
  | none => metas
  | some d =>
      if d = "" then metas
      else if hasDescriptionMeta metas then setFirstDescription metas d
      else metas ++ [⟨"description", d⟩]

/-- The metadata effect (App.tsx:84-104), run once per loaded manifest:
`siteName = siteNameEnv || data.business_name`;
`title = data.page_title || siteName`; `document.title = title`;
then the guarded description upsert.  The title assignment and the meta
upsert touch disjoint parts of the document. -/
def applyMetadata (siteNameEnv : Option String) (data : ManifestResponse)
    (doc : DocState) : DocState :=
  { title := orElseStr data.page_title (orElseStr siteNameEnv data.business_name),
    metas := upsertDescription doc.metas data.meta_description }

/-- A page with slug `"home"`, used as a concrete test manifest page. -/
def homePage : ManifestPage :=
  { slug := "home", title := "Home", sections := [] }

/-- A page with slug `"about"`, used as a concrete test manifest page. -/
def aboutPage : ManifestPage :=
  { slug := "about", title := "About", sections := [] }

/-- A concrete well-formed manifest response used in witnesses. -/
def sampleManifest : ManifestResponse :=
  { id := 1, business_name := "Acme", page_title := some "Acme Home",
    meta_description := some "A sample site", cta := none,
    manifest := { nav := none, footer := none, pages := [homePage, aboutPage] } }

/-- A concrete manifest response whose `meta_description` is absent. -/
def noDescManifest : ManifestResponse :=
  { id := 2, business_name := "Biz", page_title := none,
    meta_description := none, cta := none,
    manifest := { nav := none, footer := none, pages := [] } }

/-! ## Claim theorems -/

/-- C3 counterexample: the claim says `slugToPath(s)` never starts with a
doubled leading slash, but at the concrete slug `"//a"` only one leading
slash is stripped and one is prepended, so the result `"//a"` starts with
`"//"`. -/
theorem C3_counterexample_doubled :
    ¬ (startsWithSlash (slugToPath "//a") = true ∧
       doubledSlash (slugToPath "//a") = false) := by
  decide

/-- C3 (amended): for every slug `s`, `slugToPath s` starts with `"/"`;
and it does not start with `"//"` provided `s` itself does not start with
`"//"` (the code strips only one leading slash, so a slug with a doubled
leading slash keeps it). -/
theorem C3_slugToPath_absolute (s : String) :
    startsWithSlash (slugToPath s) = true ∧
    (doubledSlash s = false → doubledSlash (slugToPath s) = false) :=
  ⟨slugToPath_startsWithSlash s, slugToPath_no_new_doubling s⟩

/-- Witness for C3 at the concrete slug `"abc"`. -/
theorem C3_witness :
    doubledSlash "abc" = false ∧
    startsWithSlash (slugToPath "abc") = true ∧
    doubledSlash (slugToPath "abc") = false :=
  ⟨by decide, (C3_slugToPath_absolute "abc").1,
   (C3_slugToPath_absolute "abc").2 (by decide)⟩

/-- C4: `slugToPath` maps `""`, `"/"` and `"home"` to `"/"`; every other
slug is returned with at most one leading `"/"` stripped and exactly one
`"/"` prepended (so a slug already starting with `"/"` is returned
unchanged, and any other slug gets `"/"` prepended); in particular
`slugToPath "about" = "/about"` and `slugToPath "/about" = "/about"`. -/
theorem C4_slugToPath_rules :
    slugToPath "" = "/" ∧ slugToPath "/" = "/" ∧ slugToPath "home" = "/" ∧
    (∀ s : String, s ≠ "" → s ≠ "/" → s ≠ "home" →
      (startsWithSlash s = true → slugToPath s = s) ∧
      (startsWithSlash s = false → (slugToPath s).data = '/' :: s.data)) ∧
    slugToPath "about" = "/about" ∧ slugToPath "/about" = "/about" := by
  refine ⟨by decide, by decide, by decide, ?_, by decide, by decide⟩
  intro s h1 h2 h3
  constructor
  · intro hsw
    have hh : s.data.head? = some '/' := by
      unfold startsWithSlash at hsw
      simpa using hsw
    apply String.ext
    rw [slugToPath_data_of_not_special s h1 h2 h3,
      stripOneLeadingSlash_of_slash s hh]
  · intro hsw
    have hh : ¬ s.data.head? = some '/' := by
      unfold startsWithSlash at hsw
      simpa using hsw
    rw [slugToPath_data_of_not_special s h1 h2 h3,
      stripOneLeadingSlash_of_not_slash s hh]

/-- Witness for C4 at the concrete slug `"zebra"`. -/
theorem C4_witness :
    ("zebra" : String) ≠ "" ∧ startsWithSlash "zebra" = false ∧
    (slugToPath "zebra").data = '/' :: ("zebra" : String).data :=
  ⟨by decide, by decide,
   (C4_slugToPath_rules.2.2.2.1 "zebra" (by decide) (by decide)
     (by decide)).2 (by decide)⟩

/-- C5: `navigate(path)` with the requested normalized path (`path || '/'`)
equal to the current path leaves the whole router state — current path and
history — unchanged (no new entry); with a different normalized path it sets
the current path to that path and pushes exactly one new history entry.
(The push is a `history.pushState`, which performs no page reload; the model
has no reload transition.) -/
theorem C5_navigate_noop_or_push (st : RouterState) (path : String) :
    ((if path = "" then "/" else path) = st.currentPath →
      handleNavigate st path = st) ∧
    ((if path = "" then "/" else path) ≠ st.currentPath →
      (handleNavigate st path).currentPath = (if path = "" then "/" else path) ∧
      (handleNavigate st path).history =
        st.history ++ [if path = "" then "/" else path]) := by
  constructor
  · intro h
    unfold handleNavigate
    simp [h]
  · intro h
    unfold handleNavigate
    simp [h]

/-- Witness for C5: navigating to the current path `"/"` is a no-op;
navigating from `"/"` to `"/about"` updates the path and appends exactly
one history entry. -/
theorem C5_witness :
    handleNavigate ⟨"/", []⟩ "/" = ⟨"/", []⟩ ∧
    (handleNavigate ⟨"/", []⟩ "/about").currentPath =
      (if "/about" = "" then "/" else "/about") ∧
    (handleNavigate ⟨"/", []⟩ "/about").history =
      [] ++ [if "/about" = "" then "/" else "/about"] :=
  ⟨(C5_navigate_noop_or_push ⟨"/", []⟩ "/").1 (by decide),
   ((C5_navigate_noop_or_push ⟨"/", []⟩ "/about").2 (by decide)).1,
   ((C5_navigate_noop_or_push ⟨"/", []⟩ "/about").2 (by decide)).2⟩

theorem startsWithSlash_ne_empty (s : String) (h : startsWithSlash s = true) :
    s ≠ "" := by
  intro he
  subst he
  exact absurd h (by decide)

theorem handleNavigate_currentPath_cases (st : RouterState) (path : String) :
    (handleNavigate st path).currentPath = st.currentPath ∨
    (handleNavigate st path).currentPath = (if path = "" then "/" else path) := by
  by_cases h : (if path = "" then "/" else path) = st.currentPath
  · left
    unfold handleNavigate
    simp [h]
  · right
    unfold handleNavigate
    simp [h]

theorem startsWithSlash_normalized (p : String)
    (h : p = "" ∨ startsWithSlash p = true) :
    startsWithSlash (if p = "" then "/" else p) = true := by
  rcases h with h | h
  · rw [if_pos h]
    decide
  · rw [if_neg (startsWithSlash_ne_empty p h)]
    exact h

theorem navStep_preserves_slash (st : RouterState) (i : NavInput)
    (hst : startsWithSlash st.currentPath = true)
    (hi : ∀ p, i = NavInput.popState p → (p = "" ∨ startsWithSlash p = true)) :
    startsWithSlash (navStep st i).currentPath = true := by
  cases i with
  | siteNameClick =>
    rcases handleNavigate_currentPath_cases st "/" with h | h
    · rw [show navStep st .siteNameClick = handleNavigate st "/" from rfl, h]
      exact hst
    · rw [show navStep st .siteNameClick = handleNavigate st "/" from rfl, h]
      decide
  | navLinkClick slug =>
    rcases handleNavigate_currentPath_cases st (slugToPath slug) with h | h
    · rw [show navStep st (.navLinkClick slug) =
        handleNavigate st (slugToPath slug) from rfl, h]
      exact hst
    · rw [show navStep st (.navLinkClick slug) =
        handleNavigate st (slugToPath slug) from rfl, h]
      exact startsWithSlash_normalized _ (Or.inr (slugToPath_startsWithSlash slug))
  | footerLinkClick slug =>
    rcases handleNavigate_currentPath_cases st (slugToPath slug) with h | h
    · rw [show navStep st (.footerLinkClick slug) =
        handleNavigate st (slugToPath slug) from rfl, h]
      exact hst
    · rw [show navStep st (.footerLinkClick slug) =
        handleNavigate st (slugToPath slug) from rfl, h]
      exact startsWithSlash_normalized _ (Or.inr (slugToPath_startsWithSlash slug))
  | popState p =>
    exact startsWithSlash_normalized p (hi p rfl)

theorem foldl_navStep_slash (inputs : List NavInput) (st : RouterState)
    (hst : startsWithSlash st.currentPath = true)
    (hpop : ∀ i ∈ inputs, ∀ p, i = NavInput.popState p →
      (p = "" ∨ startsWithSlash p = true)) :
    startsWithSlash (inputs.foldl navStep st).currentPath = true := by
  induction inputs generalizing st with
  | nil => exact hst
  | cons i rest ih =>
    rw [List.foldl_cons]
    apply ih
    · exact navStep_preserves_slash st i hst (hpop i (by simp))
    · intro j hj p hp
      exact hpop j (by simp [hj]) p hp

/-- C9: starting from initialization by the browser location (which reports
either an empty pathname or an absolute one) and applying any sequence of
Shell navigations (site-name, nav-link or footer-link clicks) and
back/forward `popstate` events (whose reported pathname is likewise empty
or absolute), the view's current path is a non-empty string beginning with
`"/"`. -/
theorem C9_currentPath_invariant (pathname : String) (inputs : List NavInput)
    (hinit : pathname = "" ∨ startsWithSlash pathname = true)
    (hpop : ∀ i ∈ inputs, ∀ p, i = NavInput.popState p →
      (p = "" ∨ startsWithSlash p = true)) :
    (runNav pathname inputs).currentPath ≠ "" ∧
    startsWithSlash (runNav pathname inputs).currentPath = true := by
  have hsw : startsWithSlash (runNav pathname inputs).currentPath = true := by
    apply foldl_navStep_slash inputs (initialRouterState pathname) _ hpop
    exact startsWithSlash_normalized pathname hinit
  exact ⟨startsWithSlash_ne_empty _ hsw, hsw⟩

/-- Witness for C9: initialize at `"/"`, click a nav link to `"about"`,
then receive a `popstate` reporting `"/"`. -/
theorem C9_witness :
    (runNav "/" [NavInput.navLinkClick "about",
      NavInput.popState "/"]).currentPath ≠ "" ∧
    startsWithSlash (runNav "/" [NavInput.navLinkClick "about",
      NavInput.popState "/"]).currentPath = true := by
  apply C9_currentPath_invariant "/"
    [NavInput.navLinkClick "about", NavInput.popState "/"]
  · exact Or.inr (by decide)
  · intro i hi p hp
    simp only [List.mem_cons, List.not_mem_nil, or_false] at hi
    rcases hi with h | h
    · subst h
      simp at hp
    · subst h
      injection hp with h
      subst h
      exact Or.inr (by decide)

theorem find?_first_split {α : Type} (f : α → Bool) (l : List α) :
    (∃ p l1 l2, l = l1 ++ p :: l2 ∧ f p = true ∧ (∀ q ∈ l1, f q = false) ∧
      l.find? f = some p) ∨
    ((∀ q ∈ l, f q = false) ∧ l.find? f = none) := by
  induction l with
  | nil =>
    right
    exact ⟨by simp, rfl⟩
  | cons a t ih =>
    by_cases ha : f a = true
    · left
      exact ⟨a, [], t, by simp, ha, by simp, by rw [List.find?_cons_of_pos _ ha]⟩
    · have ha' : f a = false := by simpa using ha
      rcases ih with ⟨p, l1, l2, hl, hp, hl1, hf⟩ | ⟨hall, hf⟩
      · left
        refine ⟨p, a :: l1, l2, by simp [hl], hp, ?_, ?_⟩
        · intro q hq
          rcases List.mem_cons.mp hq with rfl | hq'
          · exact ha'
          · exact hl1 q hq'
        · rw [List.find?_cons_of_neg _ ha]
          exact hf
      · right
        refine ⟨?_, ?_⟩
        · intro q hq
          rcases List.mem_cons.mp hq with rfl | hq'
          · exact ha'
          · exact hall q hq'
        · rw [List.find?_cons_of_neg _ ha]
          exact hf

/-- C6: with a non-empty page list, `currentPage` selects the first page in
list order whose slug (through `slugToPath`) equals the current path, and
when no page matches it selects the first page of the list; concretely,
with pages `[home, about]` and current path `"/about"` it selects the
`about` page. -/
theorem C6_composer_selection :
    (∀ (pages : List ManifestPage) (path : String), pages ≠ [] →
      (∃ p l1 l2, pages = l1 ++ p :: l2 ∧ slugToPath p.slug = path ∧
        (∀ q ∈ l1, slugToPath q.slug ≠ path) ∧
        currentPage pages path = some p) ∨
      ((∀ q ∈ pages, slugToPath q.slug ≠ path) ∧
        currentPage pages path = pages.head?)) ∧
    currentPage [homePage, aboutPage] "/about" = some aboutPage := by
  constructor
  · intro pages path hne
    have hlen : pages.length > 0 := List.length_pos.mpr hne
    rcases find?_first_split (fun p => slugToPath p.slug == path) pages with
      ⟨p, l1, l2, hl, hp, hl1, hf⟩ | ⟨hall, hf⟩
    · left
      refine ⟨p, l1, l2, hl, by simpa using hp, ?_, ?_⟩
      · intro q hq
        have := hl1 q hq
        simpa using this
      · unfold currentPage
        rw [if_pos hlen, hf]
    · right
      refine ⟨?_, ?_⟩
      · intro q hq
        have := hall q hq
        simpa using this
      · unfold currentPage
        rw [if_pos hlen, hf]
  · decide

/-- Witness for C6: a one-page list whose single page does not match the
path `"/x"`, so the fallback selects the head. -/
theorem C6_witness :
    ([homePage] : List ManifestPage) ≠ [] ∧
    ((∃ p l1 l2, ([homePage] : List ManifestPage) = l1 ++ p :: l2 ∧
        slugToPath p.slug = "/x" ∧ (∀ q ∈ l1, slugToPath q.slug ≠ "/x") ∧
        currentPage [homePage] "/x" = some p) ∨
      ((∀ q ∈ [homePage], slugToPath q.slug ≠ "/x") ∧
        currentPage [homePage] "/x" = ([homePage] : List ManifestPage).head?)) :=
  ⟨by decide, C6_composer_selection.1 [homePage] "/x" (by decide)⟩

/-- C1 counterexample: with the non-empty page list `[homePage]` and
current path `"/missing"` (which no page's slug maps to), the composer does
not signal "page not found": the `find || pages[0]` fallback makes it
render the first page instead. -/
theorem C1_counterexample_fallback :
    ([homePage] : List ManifestPage) ≠ [] ∧
    (∀ p ∈ ([homePage] : List ManifestPage), slugToPath p.slug ≠ "/missing") ∧
    composeView [homePage] "/missing" ≠ pageNotFoundView := by
  decide

/-- C1 (amended): for every manifest whose page list is non-empty and every
current path matching no page's slug, the Page Composer falls back to the
first page and renders its sections; the "page not found" display is not
produced (it is unreachable while pages exist), though it remains distinct
from the empty-list display ("Page not found" vs "No pages defined in
manifest"). -/
theorem C1_no_not_found_with_pages (pages : List ManifestPage) (path : String)
    (h1 : pages ≠ [])
    (h2 : ∀ p ∈ pages, slugToPath p.slug ≠ path) :
    (∃ p, pages.head? = some p ∧
      composeView pages path = .pageView (p.sections.map renderSection)) ∧
    composeView pages path ≠ pageNotFoundView ∧
    pageNotFoundView ≠ noPagesDefinedView := by
  have hfind : pages.find? (fun p => slugToPath p.slug == path) = none := by
    rw [List.find?_eq_none]
    intro q hq
    simpa using h2 q hq
  cases pages with
  | nil => exact absurd rfl h1
  | cons hd tl =>
    have hcp : currentPage (hd :: tl) path = some hd := by
      unfold currentPage
      rw [if_pos (by simp), hfind]
      rfl
    have hcv : composeView (hd :: tl) path =
        .pageView (hd.sections.map renderSection) := by
      unfold composeView
      rw [hcp]
    refine ⟨⟨hd, rfl, hcv⟩, ?_, by decide⟩
    rw [hcv]
    intro hcontra
    exact ComposedView.noConfusion (hcontra.trans rfl)

/-- Witness for C1 (amended) at the concrete list `[aboutPage]` and path
`"/nowhere"`. -/
theorem C1_witness :
    (∃ p, ([aboutPage] : List ManifestPage).head? = some p ∧
      composeView [aboutPage] "/nowhere" =
        .pageView (p.sections.map renderSection)) ∧
    composeView [aboutPage] "/nowhere" ≠ pageNotFoundView ∧
    pageNotFoundView ≠ noPagesDefinedView :=
  C1_no_not_found_with_pages [aboutPage] "/nowhere" (by decide) (by decide)

/-- C2 counterexample: a non-2xx response (`ok = false`) whose body parses
as JSON puts the manifest into the loaded state — the code never inspects
`res.ok`/`res.status` — contradicting the claim that the loaded state is
reached only for 2xx responses. -/
theorem C2_counterexample_non2xx_loaded :
    (applyFetch (.response false (some sampleManifest))).1 = some sampleManifest ∧
    applyFetch (.response false (some sampleManifest)) ≠
      (none, some fetchErrorMessage) := by
  decide

/-- C2 (amended): a network error or a response whose body is not JSON
results in the failed state with the generic message and no manifest data;
the HTTP status is never inspected, so the loaded(manifest) state is
reached exactly when the response body parses as JSON, regardless of
status. -/
theorem C2_fetch_outcomes (o : FetchOutcome) :
    (o = .networkError ∨ (∃ ok, o = .response ok none) →
      applyFetch o = (none, some fetchErrorMessage)) ∧
    (∀ m, (applyFetch o).1 = some m ↔ ∃ ok, o = .response ok (some m)) := by
  cases o with
  | networkError =>
    refine ⟨fun _ => rfl, fun m => ?_⟩
    simp [applyFetch]
  | response ok body =>
    cases body with
    | none =>
      refine ⟨fun _ => rfl, fun m => ?_⟩
      simp [applyFetch]
    | some mf =>
      refine ⟨?_, fun m => ?_⟩
      · rintro (h | ⟨ok', h⟩) <;> simp at h
      · constructor
        · intro h
          refine ⟨ok, ?_⟩
          simp [applyFetch] at h
          rw [h]
        · rintro ⟨ok', h⟩
          simp at h
          simp [applyFetch, h.2]

/-- Witness for C2 at a network error and at a non-JSON body. -/
theorem C2_witness :
    applyFetch .networkError = (none, some fetchErrorMessage) ∧
    applyFetch (.response true none) = (none, some fetchErrorMessage) :=
  ⟨(C2_fetch_outcomes .networkError).1 (Or.inl rfl),
   (C2_fetch_outcomes (.response true none)).1 (Or.inr ⟨true, rfl⟩)⟩

theorem mem_optElem {f : String → Elem} {o : Option String} {e : Elem}
    (h : e ∈ optElem f o) : ∃ u, e = f u := by
  cases o with
  | none => simp [optElem] at h
  | some s =>
    by_cases hs : s = ""
    · simp [optElem, hs] at h
    · simp [optElem, hs] at h
      exact ⟨s, h⟩

/-- C7: the Section Dispatcher selects its rule by exact string equality on
the section's `type`; `"hero"` renders heading and body with `""`
substituted for absent fields; `"text-block"`/`"content-block"` and
`"image-block"` omit absent fields; `"profile-row"`/`"testimonial"`/
`"faq"`/`"contact-form"` render a generic block showing the raw type tag;
any other type renders nothing. -/
theorem C7_section_dispatch (s : ManifestSection) :
    (s.type = "hero" →
      renderSection s =
        [.headingElem (s.heading.getD ""), .bodyElem (s.body.getD "")]) ∧
    ((s.type = "text-block" ∨ s.type = "content-block") →
      renderSection s = TextBlock s.heading s.body ∧
      (s.heading = none → ∀ t, Elem.headingElem t ∉ renderSection s) ∧
      (s.body = none → ∀ t, Elem.bodyElem t ∉ renderSection s)) ∧
    (s.type = "image-block" →
      renderSection s = ImageBlock s.heading s.body ∧
      (s.heading = none → ∀ t, Elem.headingElem t ∉ renderSection s) ∧
      (s.body = none → ∀ t, Elem.bodyElem t ∉ renderSection s)) ∧
    ((s.type = "profile-row" ∨ s.type = "testimonial" ∨ s.type = "faq" ∨
        s.type = "contact-form") →
      renderSection s = GenericSection s.type s.heading s.body ∧
      Elem.typeTag s.type ∈ renderSection s) ∧
    (s.type ∉ (["hero", "text-block", "content-block", "image-block",
        "profile-row", "testimonial", "faq", "contact-form"] : List String) →
      renderSection s = []) := by
  obtain ⟨ty, heading, body⟩ := s
  refine ⟨?_, ?_, ?_, ?_, ?_⟩
  · intro h
    simp only at h
    subst h
    simp [renderSection, Hero]
  · intro h
    simp only at h
    have hrs : renderSection ⟨ty, heading, body⟩ = TextBlock heading body := by
      rcases h with h | h <;> subst h <;> simp [renderSection]
    refine ⟨hrs, ?_, ?_⟩
    · intro hh t hmem
      rw [hrs] at hmem
      unfold TextBlock at hmem
      subst hh
      simp only [optElem, List.nil_append] at hmem
      obtain ⟨u, hu⟩ := mem_optElem hmem
      exact Elem.noConfusion hu
    · intro hb t hmem
      rw [hrs] at hmem
      unfold TextBlock at hmem
      subst hb
      rw [show optElem Elem.bodyElem none = [] from rfl, List.append_nil] at hmem
      obtain ⟨u, hu⟩ := mem_optElem hmem
      exact Elem.noConfusion hu
  · intro h
    simp only at h
    subst h
    have hrs : renderSection ⟨"image-block", heading, body⟩ =
        ImageBlock heading body := by
      simp [renderSection]
    refine ⟨hrs, ?_, ?_⟩
    · intro hh t hmem
      rw [hrs] at hmem
      unfold ImageBlock at hmem
      subst hh
      simp only [optElem, List.nil_append, List.mem_append] at hmem
      rcases hmem with hmem | hmem
      · obtain ⟨u, hu⟩ := mem_optElem hmem
        exact Elem.noConfusion hu
      · simp at hmem
    · intro hb t hmem
      rw [hrs] at hmem
      unfold ImageBlock at hmem
      subst hb
      rw [show optElem Elem.bodyElem none = [] from rfl, List.append_nil] at hmem
      simp only [List.mem_append] at hmem
      rcases hmem with hmem | hmem
      · obtain ⟨u, hu⟩ := mem_optElem hmem
        exact Elem.noConfusion hu
      · simp at hmem
  · intro h
    simp only at h
    have hrs : renderSection ⟨ty, heading, body⟩ =
        GenericSection ty heading body := by
      rcases h with h | h | h | h <;> subst h <;> simp [renderSection]
    refine ⟨hrs, ?_⟩
    rw [hrs]
    unfold GenericSection
    simp
  · intro h
    simp only [List.mem_cons, List.not_mem_nil, or_false, not_or] at h
    obtain ⟨h1, h2, h3, h4, h5, h6, h7, h8⟩ := h
    simp [renderSection, h1, h2, h3, h4, h5, h6, h7, h8]

/-- Witness for C7: an unknown section type renders nothing; a hero section
with both fields present renders them. -/
theorem C7_witness :
    renderSection ⟨"unknown-future-type", none, none⟩ = [] ∧
    renderSection ⟨"hero", some "Welcome", some "Hi"⟩ =
      [.headingElem ((some "Welcome").getD ""), .bodyElem ((some "Hi").getD "")] :=
  ⟨(C7_section_dispatch ⟨"unknown-future-type", none, none⟩).2.2.2.2 (by decide),
   (C7_section_dispatch ⟨"hero", some "Welcome", some "Hi"⟩).1 rfl⟩

theorem countDescriptionMetas_setFirst (metas : List MetaElem) (c : String) :
    countDescriptionMetas (setFirstDescription metas c) =
      countDescriptionMetas metas := by
  induction metas with
  | nil => rfl
  | cons m rest ih =>
    unfold setFirstDescription
    by_cases hm : m.name = "description"
    · rw [if_pos hm]
      unfold countDescriptionMetas
      simp [List.countP_cons, hm]
    · rw [if_neg hm]
      unfold countDescriptionMetas at *
      simp [List.countP_cons, hm, ih]

theorem countDescriptionMetas_pos_of_has (metas : List MetaElem)
    (h : hasDescriptionMeta metas = true) :
    1 ≤ countDescriptionMetas metas := by
  unfold hasDescriptionMeta at h
  rw [List.any_eq_true] at h
  obtain ⟨m, hm, hname⟩ := h
  unfold countDescriptionMetas
  exact List.countP_pos_iff.mpr ⟨m, hm, hname⟩

theorem countDescriptionMetas_zero_of_not_has (metas : List MetaElem)
    (h : hasDescriptionMeta metas = false) :
    countDescriptionMetas metas = 0 := by
  unfold hasDescriptionMeta at h
  unfold countDescriptionMetas
  rw [List.countP_eq_zero]
  intro m hm
  intro hname
  rw [List.any_eq_false] at h
  exact absurd hname (h m hm)

theorem countDesc_upsert (metas : List MetaElem) (d : String) (hd : d ≠ "") :
    countDescriptionMetas (upsertDescription metas (some d)) =
      max (countDescriptionMetas metas) 1 := by
  simp only [upsertDescription]
  rw [if_neg hd]
  by_cases hh : hasDescriptionMeta metas = true
  · rw [if_pos hh, countDescriptionMetas_setFirst]
    rw [max_eq_left (countDescriptionMetas_pos_of_has metas hh)]
  · rw [if_neg hh]
    have h0 := countDescriptionMetas_zero_of_not_has metas (by simpa using hh)
    unfold countDescriptionMetas at *
    rw [List.countP_append, h0]
    rfl

theorem truthyStr_some (o : Option String) (h : truthyStr o = true) :
    ∃ d, o = some d ∧ d ≠ "" := by
  cases o with
  | none => simp [truthyStr] at h
  | some s =>
    refine ⟨s, rfl, ?_⟩
    simpa [truthyStr] using h

theorem orElseStr_of_falsy (o : Option String) (fb : String)
    (h : truthyStr o = false) : orElseStr o fb = fb := by
  cases o with
  | none => rfl
  | some s =>
    have : s = "" := by simpa [truthyStr] using h
    subst this
    simp [orElseStr]

theorem orElseStr_of_truthy (o : Option String) (fb : String)
    (h : truthyStr o = true) : orElseStr o fb = o.getD "" := by
  obtain ⟨s, hs, hne⟩ := truthyStr_some o h
  subst hs
  simp [orElseStr, hne]

theorem countDesc_applyMetadata_one (env : Option String)
    (data : ManifestResponse) (doc : DocState)
    (hdesc : truthyStr data.meta_description = true)
    (hdoc : countDescriptionMetas doc.metas ≤ 1) :
    countDescriptionMetas (applyMetadata env data doc).metas = 1 := by
  obtain ⟨d, hd, hne⟩ := truthyStr_some _ hdesc
  have : (applyMetadata env data doc).metas =
      upsertDescription doc.metas data.meta_description := rfl
  rw [this, hd, countDesc_upsert doc.metas d hne]
  omega

theorem countDesc_foldl_one (env : Option String) (ms : List ManifestResponse)
    (doc : DocState)
    (hdoc : countDescriptionMetas doc.metas = 1)
    (hms : ∀ m ∈ ms, truthyStr m.meta_description = true) :
    countDescriptionMetas
      ((ms.foldl (fun d m => applyMetadata env m d) doc).metas) = 1 := by
  induction ms generalizing doc with
  | nil => exact hdoc
  | cons m rest ih =>
    rw [List.foldl_cons]
    apply ih
    · exact countDesc_applyMetadata_one env m doc (hms m (by simp))
        (by omega)
    · intro q hq
      exact hms q (by simp [hq])

/-- C8: after every successful manifest load, the document title equals the
manifest's page title when present (non-empty), otherwise the effective
site name (the configured override when set, else the manifest's business
name); and — starting from a head with at most one description meta — after
one load followed by any number of repeated loads (each with a present
description) exactly one description meta element exists. -/
theorem C8_title_and_single_description (env : Option String)
    (data : ManifestResponse) (doc : DocState) :
    ((truthyStr data.page_title = true →
        (applyMetadata env data doc).title = data.page_title.getD "") ∧
     (truthyStr data.page_title = false →
        (truthyStr env = true →
          (applyMetadata env data doc).title = env.getD "") ∧
        (truthyStr env = false →
          (applyMetadata env data doc).title = data.business_name))) ∧
    (truthyStr data.meta_description = true →
      countDescriptionMetas doc.metas ≤ 1 →
      ∀ ms : List ManifestResponse,
        (∀ m ∈ ms, truthyStr m.meta_description = true) →
        countDescriptionMetas
          ((ms.foldl (fun d m => applyMetadata env m d)
            (applyMetadata env data doc)).metas) = 1) := by
  constructor
  · constructor
    · intro hpt
      show orElseStr data.page_title (orElseStr env data.business_name) = _
      exact orElseStr_of_truthy _ _ hpt
    · intro hpt
      constructor
      · intro henv
        show orElseStr data.page_title (orElseStr env data.business_name) = _
        rw [orElseStr_of_falsy _ _ hpt, orElseStr_of_truthy _ _ henv]
      · intro henv
        show orElseStr data.page_title (orElseStr env data.business_name) = _
        rw [orElseStr_of_falsy _ _ hpt, orElseStr_of_falsy _ _ henv]
  · intro hdesc hdoc ms hms
    exact countDesc_foldl_one env ms _
      (countDesc_applyMetadata_one env data doc hdesc hdoc) hms

/-- Witness for C8 at `sampleManifest` (present page title and description)
loaded twice onto an initially empty head. -/
theorem C8_witness :
    truthyStr sampleManifest.page_title = true ∧
    (applyMetadata none sampleManifest ⟨"", []⟩).title =
      sampleManifest.page_title.getD "" ∧
    truthyStr sampleManifest.meta_description = true ∧
    countDescriptionMetas (DocState.mk "" []).metas ≤ 1 ∧
    countDescriptionMetas
      (([sampleManifest].foldl (fun d m => applyMetadata none m d)
        (applyMetadata none sampleManifest ⟨"", []⟩)).metas) = 1 :=
  ⟨by decide,
   (C8_title_and_single_description none sampleManifest ⟨"", []⟩).1.1 (by decide),
   by decide, by decide,
   (C8_title_and_single_description none sampleManifest ⟨"", []⟩).2 (by decide)
     (by decide) [sampleManifest] (by decide)⟩

/-- C10: when a loaded manifest's `meta_description` is absent or empty,
the metadata effect still sets the document title (to page title or the
effective site name) but leaves the document's meta elements entirely
unchanged: nothing is created and no existing element is modified. -/
theorem C10_absent_description_frame (env : Option String)
    (data : ManifestResponse) (doc : DocState)
    (h : truthyStr data.meta_description = false) :
    (applyMetadata env data doc).metas = doc.metas ∧
    (applyMetadata env data doc).title =
      orElseStr data.page_title (orElseStr env data.business_name) := by
  refine ⟨?_, rfl⟩
  show upsertDescription doc.metas data.meta_description = doc.metas
  cases hd : data.meta_description with
  | none => rfl
  | some d =>
    have : d = "" := by
      rw [hd] at h
      simpa [truthyStr] using h
    subst this
    simp [upsertDescription]

/-- Witness for C10: loading `noDescManifest` over a head that already has
a description meta leaves that meta untouched and sets the title to the
business name. -/
theorem C10_witness :
    truthyStr noDescManifest.meta_description = false ∧
    (applyMetadata none noDescManifest
      ⟨"old", [⟨"description", "keep"⟩]⟩).metas = [⟨"description", "keep"⟩] ∧
    (applyMetadata none noDescManifest ⟨"old", [⟨"description", "keep"⟩]⟩).title =
      orElseStr noDescManifest.page_title
        (orElseStr none noDescManifest.business_name) :=
  ⟨by decide,
   (C10_absent_description_frame none noDescManifest
     ⟨"old", [⟨"description", "keep"⟩]⟩ (by decide)).1,
   (C10_absent_description_frame none noDescManifest
     ⟨"old", [⟨"description", "keep"⟩]⟩ (by decide)).2⟩

end TemplateApp
